import Mathlib

/-!
Verification development for the SunCalc WASM numeric core
(AssemblyScript source, file src/index.ts, third section).

Modelling conventions, stated once here:

* An f64 value is modelled by the type `F` below: either `F.nan` or an exact
  real payload `F.val x`.  Decimal literals of the source are taken at their
  exact decimal value; the transcendental functions are the exact real ones.
  The IEEE signed zero is identified with the real number 0, which is the
  correct identification for the one operation of this program that can
  observe a zero sign, the falsy test of the AssemblyScript expression
  `x || 0` (both zeros are falsy there).
* NaN propagates through every arithmetic operation and through the
  transcendental functions, as in IEEE arithmetic.  `asin`/`acos` of an
  argument outside [-1, 1], and `sqrt` of a negative argument, give NaN, as
  in JavaScript and AssemblyScript.
* Division by zero is mapped to `F.nan`.  In IEEE arithmetic a nonzero
  numerator would give an infinity instead; in this program every division
  with a possibly-zero denominator flows into `acos`, which turns both an
  infinity and a NaN into NaN, so the two conventions agree on all observable
  results of the code and the claims.
* `Math.round` of AssemblyScript has the JavaScript semantics: nearest
  integer, ties toward positive infinity.  It is modelled by `jsRound`.
* The source type `Timestamp` is `u64`, modelled as `Nat`.  The cast
  `as i64` applied to an f64 is the nontrapping (saturating) conversion that
  AssemblyScript emits by default: NaN goes to 0, out-of-range values clamp
  to the i64 bounds, other values truncate toward zero; the i64 result is
  then reinterpreted as u64 (reduction modulo 2 ^ 64).  This is modelled by
  `f64ToI64` and `i64ToU64`.
-/

inductive F where
  | nan : F
  | val : ℝ → F

def Fadd : F → F → F
  | F.nan, _ => F.nan
  | F.val _, F.nan => F.nan
  | F.val a, F.val b => F.val (a + b)

def Fsub : F → F → F
  | F.nan, _ => F.nan
  | F.val _, F.nan => F.nan
  | F.val a, F.val b => F.val (a - b)

def Fmul : F → F → F
  | F.nan, _ => F.nan
  | F.val _, F.nan => F.nan
  | F.val a, F.val b => F.val (a * b)

noncomputable def Fdiv : F → F → F
  | F.nan, _ => F.nan
  | F.val _, F.nan => F.nan
  | F.val a, F.val b => if b = 0 then F.nan else F.val (a / b)

def Fneg : F → F
  | F.nan => F.nan
  | F.val a => F.val (-a)

instance : Add F := ⟨Fadd⟩
instance : Sub F := ⟨Fsub⟩
instance : Mul F := ⟨Fmul⟩
noncomputable instance : Div F := ⟨Fdiv⟩
instance : Neg F := ⟨Fneg⟩

noncomputable def Fsin : F → F
  | F.nan => F.nan
  | F.val x => F.val (Real.sin x)

noncomputable def Fcos : F → F
  | F.nan => F.nan
  | F.val x => F.val (Real.cos x)

noncomputable def Ftan : F → F
  | F.nan => F.nan
  | F.val x => F.val (Real.tan x)

noncomputable def Fasin : F → F
  | F.nan => F.nan
  | F.val x => if x < -1 ∨ 1 < x then F.nan else F.val (Real.arcsin x)

noncomputable def Facos : F → F
  | F.nan => F.nan
  | F.val x => if x < -1 ∨ 1 < x then F.nan else F.val (Real.arccos x)

noncomputable def Fatan2 : F → F → F
  | F.nan, _ => F.nan
  | F.val _, F.nan => F.nan
  | F.val y, F.val x => F.val (Complex.arg ⟨x, y⟩)

noncomputable def Fsqrt : F → F
  | F.nan => F.nan
  | F.val x => if x < 0 then F.nan else F.val (Real.sqrt x)

/-- JavaScript and AssemblyScript Math.round: nearest integer, ties toward
positive infinity. -/
noncomputable def jsRound : F → F
  | F.nan => F.nan
  | F.val x => F.val ((Int.floor (x + 1 / 2) : ℤ) : ℝ)

/-- Truncation of a real toward zero. -/
noncomputable def truncR (x : ℝ) : ℤ :=
  if 0 ≤ x then Int.floor x else Int.ceil x

/-- The nontrapping f64-to-i64 conversion of WebAssembly
(i64.trunc_sat_f64_s): NaN to 0, clamping at the i64 bounds, otherwise
truncation toward zero. -/
noncomputable def f64ToI64 : F → ℤ
  | F.nan => 0
  | F.val x =>
      if x ≤ -(2 ^ 63 : ℝ) then -(2 ^ 63)
      else if (2 ^ 63 : ℝ) ≤ x then 2 ^ 63 - 1
      else truncR x

/-- Reinterpretation of an i64 value as u64. -/
def i64ToU64 (v : ℤ) : ℕ :=
  (v % 2 ^ 64).toNat

/-- The AssemblyScript expression `x || 0` on f64: NaN and the two zeros are
falsy and give 0, every other value is returned unchanged. -/
noncomputable def orZero : F → F
  | F.nan => F.val 0
  | F.val x => if x = 0 then F.val 0 else F.val x

-- Simp lemmas for the float model.

@[simp] theorem nan_add (x : F) : F.nan + x = F.nan := rfl
@[simp] theorem add_nan (x : F) : x + F.nan = F.nan := by cases x <;> rfl
@[simp] theorem val_add (a b : ℝ) : F.val a + F.val b = F.val (a + b) := rfl
@[simp] theorem nan_sub (x : F) : F.nan - x = F.nan := rfl
@[simp] theorem sub_nan (x : F) : x - F.nan = F.nan := by cases x <;> rfl
@[simp] theorem val_sub (a b : ℝ) : F.val a - F.val b = F.val (a - b) := rfl
@[simp] theorem nan_mul (x : F) : F.nan * x = F.nan := rfl
@[simp] theorem mul_nan (x : F) : x * F.nan = F.nan := by cases x <;> rfl
@[simp] theorem val_mul (a b : ℝ) : F.val a * F.val b = F.val (a * b) := rfl
@[simp] theorem nan_div (x : F) : F.nan / x = F.nan := rfl
@[simp] theorem div_nan (x : F) : x / F.nan = F.nan := by cases x <;> rfl
@[simp] theorem neg_val (a : ℝ) : -(F.val a) = F.val (-a) := rfl
@[simp] theorem neg_nan : -F.nan = F.nan := rfl

theorem val_div (a b : ℝ) (hb : b ≠ 0) :
    F.val a / F.val b = F.val (a / b) := by
  show Fdiv (F.val a) (F.val b) = F.val (a / b)
  simp [Fdiv, hb]

theorem val_div_zero (a : ℝ) : F.val a / F.val 0 = F.nan := by
  show Fdiv (F.val a) (F.val 0) = F.nan
  simp [Fdiv]

@[simp] theorem sin_nan : Fsin F.nan = F.nan := rfl
@[simp] theorem sin_val (x : ℝ) : Fsin (F.val x) = F.val (Real.sin x) := rfl
@[simp] theorem cos_nan : Fcos F.nan = F.nan := rfl
@[simp] theorem cos_val (x : ℝ) : Fcos (F.val x) = F.val (Real.cos x) := rfl
@[simp] theorem tan_nan : Ftan F.nan = F.nan := rfl
@[simp] theorem tan_val (x : ℝ) : Ftan (F.val x) = F.val (Real.tan x) := rfl
@[simp] theorem asin_nan : Fasin F.nan = F.nan := rfl
@[simp] theorem acos_nan : Facos F.nan = F.nan := rfl
@[simp] theorem sqrt_nan : Fsqrt F.nan = F.nan := rfl
@[simp] theorem atan2_nan_left (x : F) : Fatan2 F.nan x = F.nan := rfl
@[simp] theorem atan2_nan_right (x : F) : Fatan2 x F.nan = F.nan := by
  cases x <;> rfl
@[simp] theorem atan2_val (y x : ℝ) :
    Fatan2 (F.val y) (F.val x) = F.val (Complex.arg ⟨x, y⟩) := rfl
@[simp] theorem jsRound_nan : jsRound F.nan = F.nan := rfl
@[simp] theorem jsRound_val (x : ℝ) :
    jsRound (F.val x) = F.val ((Int.floor (x + 1 / 2) : ℤ) : ℝ) := rfl
@[simp] theorem f64ToI64_nan : f64ToI64 F.nan = 0 := rfl
@[simp] theorem orZero_nan : orZero F.nan = F.val 0 := rfl
@[simp] theorem orZero_val_zero : orZero (F.val 0) = F.val 0 := by
  simp [orZero]

theorem orZero_val_of_ne (x : ℝ) (hx : x ≠ 0) : orZero (F.val x) = F.val x := by
  simp [orZero, hx]

theorem asin_val_of_mem (x : ℝ) (h1 : -1 ≤ x) (h2 : x ≤ 1) :
    Fasin (F.val x) = F.val (Real.arcsin x) := by
  simp only [Fasin, if_neg (by push_neg; exact ⟨h1, h2⟩ : ¬(x < -1 ∨ 1 < x))]

theorem acos_val_of_mem (x : ℝ) (h1 : -1 ≤ x) (h2 : x ≤ 1) :
    Facos (F.val x) = F.val (Real.arccos x) := by
  simp only [Facos, if_neg (by push_neg; exact ⟨h1, h2⟩ : ¬(x < -1 ∨ 1 < x))]

theorem sqrt_val_of_nonneg (x : ℝ) (hx : 0 ≤ x) :
    Fsqrt (F.val x) = F.val (Real.sqrt x) := by
  simp only [Fsqrt, if_neg (not_lt.mpr hx)]

-- Source constants (src/index.ts lines 276 to 289).

def MILLISECONDS_PER_DAY : ℕ := 1000 * 60 * 60 * 24
def J1970 : ℕ := 2440588
def J2000 : ℕ := 2451545
noncomputable def TO_RAD : ℝ := Real.pi / 180
noncomputable def OBLIQUITY_OF_EARTH : ℝ := 23.4397 * TO_RAD
noncomputable def PERIHELION_OF_EARTH : ℝ := 102.9372 * TO_RAD

-- Time conversion (src/index.ts lines 290 to 300).

noncomputable def toJulian (timestamp : F) : F :=
  timestamp / F.val (MILLISECONDS_PER_DAY : ℝ) - F.val 0.5 + F.val (J1970 : ℝ)

noncomputable def fromJulian (j : F) : ℕ :=
  i64ToU64 (f64ToI64 (jsRound
    ((j + F.val 0.5 - F.val (J1970 : ℝ)) * F.val (MILLISECONDS_PER_DAY : ℝ))))

noncomputable def toDays (timestamp : F) : F :=
  toJulian timestamp - F.val (J2000 : ℝ)

-- General calculations for position (src/index.ts lines 304 to 329).

noncomputable def rightAscension (l b : F) : F :=
  Fatan2 (Fsin l * Fcos (F.val OBLIQUITY_OF_EARTH) -
          Ftan b * Fsin (F.val OBLIQUITY_OF_EARTH)) (Fcos l)

noncomputable def declination (l b : F) : F :=
  Fasin (Fsin b * Fcos (F.val OBLIQUITY_OF_EARTH) +
         Fcos b * Fsin (F.val OBLIQUITY_OF_EARTH) * Fsin l)

noncomputable def azimuth (h phi dec : F) : F :=
  Fatan2 (Fsin h) (Fcos h * Fsin phi - Ftan dec * Fcos phi)

noncomputable def altitude (h phi dec : F) : F :=
  Fasin (Fsin phi * Fsin dec + Fcos phi * Fcos dec * Fcos h)

noncomputable def siderealTime (d lw : F) : F :=
  (F.val 280.16 + F.val 360.9856235 * d) * F.val TO_RAD - lw

noncomputable def astro_refraction (h : F) : F :=
  let hh : F := match h with
    | F.nan => F.nan
    | F.val x => if x < 0 then F.val 0 else F.val x
  Ftan (F.val 0.0002967 / (hh + F.val 0.00312536 / (hh + F.val 0.08901179)))

-- General sun calculations (src/index.ts lines 333 to 343).

noncomputable def solar_mean_anomaly (d : F) : F :=
  (F.val 357.5291 + F.val 0.98560028 * d) * F.val TO_RAD

noncomputable def equationOfCenter (m : F) : F :=
  (F.val 1.9148 * Fsin (F.val 1.0 * m) + F.val 0.02 * Fsin (F.val 2.0 * m) +
   F.val 0.0003 * Fsin (F.val 3.0 * m)) * F.val TO_RAD

noncomputable def eclipticLongitude (m : F) : F :=
  m + equationOfCenter m + F.val PERIHELION_OF_EARTH + F.val Real.pi

-- Calculations for sun times (src/index.ts lines 347 to 375).

noncomputable def J0 : ℝ := 0.0009

noncomputable def julianCycle (d lw : F) : F :=
  jsRound (d - F.val J0 - lw / (F.val 2.0 * F.val Real.pi))

noncomputable def approxTransit (h_t lw n : F) : F :=
  F.val J0 + (h_t + lw) / (F.val 2.0 * F.val Real.pi) + n

noncomputable def solarTransitJ (ds m l : F) : F :=
  F.val (J2000 : ℝ) + ds + F.val 0.0053 * Fsin m - F.val 0.0069 * Fsin (F.val 2.0 * l)

noncomputable def hourAngle (h phi dec : F) : F :=
  Facos ((Fsin h - Fsin phi * Fsin dec) / (Fcos phi * Fcos dec))

noncomputable def observerAngle (height : F) : F :=
  F.val (-2.076) * Fsqrt height / F.val 60.0

noncomputable def get_set_j (h lw phi dec n m l : F) : F :=
  let w := hourAngle h phi dec
  let a := approxTransit w lw n
  solarTransitJ a m l

-- Output structures (src/index.ts lines 237 to 271).  The field `distance`
-- of Coords and the fields `distance` and `parallacticAngle` of Position
-- default to 0 in the source classes.  Timestamp is u64, here Nat.

structure Coords where
  rightAscension : F
  declination : F
  distance : F

structure Position where
  azimuth : F
  altitude : F
  distance : F
  parallacticAngle : F

structure Illumination where
  fraction : F
  phase : F
  angle : F

structure SunTimes where
  solarNoon : ℕ
  nadir : ℕ
  sunrise : ℕ
  sunset : ℕ
  sunrise_end : ℕ
  sunsetStart : ℕ
  dawn : ℕ
  dusk : ℕ
  nauticalDawn : ℕ
  nauticalDusk : ℕ
  nightEnd : ℕ
  night : ℕ
  goldenHourEnd : ℕ
  goldenHour : ℕ

-- sunCoords and getPosition (src/index.ts lines 377 to 410).

noncomputable def sunCoords (d : F) : Coords :=
  let m := solar_mean_anomaly d
  let l := eclipticLongitude m
  { rightAscension := rightAscension l (F.val 0.0)
    declination := declination l (F.val 0.0)
    distance := F.val 0 }

noncomputable def getPosition (timestamp lat lon : F) : Position :=
  let lw := -lon * F.val TO_RAD
  let phi := lat * F.val TO_RAD
  let d := toDays timestamp
  let m := solar_mean_anomaly d
  let l := eclipticLongitude m
  let dec := declination l (F.val 0.0)
  let ra := rightAscension l (F.val 0.0)
  let h := siderealTime d lw - ra
  { azimuth := azimuth h phi dec
    altitude := altitude h phi dec
    distance := F.val 0
    parallacticAngle := F.val 0 }

-- The SunTime class (src/index.ts lines 412 to 439).  Its calc method
-- returns the two-element array [fromJulian j_rise, fromJulian j_set],
-- modelled as a pair.  The two let bindings of calc are lifted into the
-- named definitions sunTimeJSet and sunTimeJRise.

structure SunTime where
  value : F

def SunTime.SUNRISE_SUNSET : SunTime := ⟨F.val (-0.833)⟩
def SunTime.SUNRISE_END_SUNSET_START : SunTime := ⟨F.val (-0.3)⟩
def SunTime.DAWN_DUSK : SunTime := ⟨F.val (-6.0)⟩
def SunTime.NAUTICAL_DAWN_NAUTICAL_DUSK : SunTime := ⟨F.val (-12.0)⟩
def SunTime.NIGHT_END_NIGHT : SunTime := ⟨F.val (-18.0)⟩
def SunTime.GOLDEN_HOUR_END_GOLDEN_HOUR : SunTime := ⟨F.val 6.0⟩

noncomputable def sunTimeJSet (s : SunTime) (dh lw phi dec n m l : F) : F :=
  get_set_j ((s.value + dh) * F.val Real.pi / F.val 180.0) lw phi dec n m l

noncomputable def sunTimeJRise (s : SunTime) (j_noon dh lw phi dec n m l : F) : F :=
  j_noon - (sunTimeJSet s dh lw phi dec n m l - j_noon)

noncomputable def SunTime.calc (s : SunTime) (j_noon dh lw phi dec n m l : F) :
    ℕ × ℕ :=
  (fromJulian (sunTimeJRise s j_noon dh lw phi dec n m l),
   fromJulian (sunTimeJSet s dh lw phi dec n m l))

-- getTimes (src/index.ts lines 441 to 496).  The local let bindings are
-- lifted into the named definitions gt_lw, gt_phi, gt_d, gt_n, gt_ds, gt_m,
-- gt_l, gt_dec, gt_jnoon.

noncomputable def gt_lw (lon : F) : F := -lon * F.val TO_RAD

noncomputable def gt_phi (lat : F) : F := lat * F.val TO_RAD

noncomputable def gt_d (timestamp : F) : F := toDays timestamp

noncomputable def gt_n (timestamp lon : F) : F :=
  julianCycle (gt_d timestamp) (gt_lw lon)

noncomputable def gt_ds (timestamp lon : F) : F :=
  approxTransit (F.val 0.0) (gt_lw lon) (gt_n timestamp lon)

noncomputable def gt_m (timestamp lon : F) : F :=
  solar_mean_anomaly (gt_ds timestamp lon)

noncomputable def gt_l (timestamp lon : F) : F :=
  eclipticLongitude (gt_m timestamp lon)

noncomputable def gt_dec (timestamp lon : F) : F :=
  declination (gt_l timestamp lon) (F.val 0.0)

noncomputable def gt_jnoon (timestamp lon : F) : F :=
  solarTransitJ (gt_ds timestamp lon) (gt_m timestamp lon) (gt_l timestamp lon)

noncomputable def getTimes (timestamp lat lon h : F) : SunTimes :=
  let lw := gt_lw lon
  let phi := gt_phi lat
  let dh := observerAngle h
  let n := gt_n timestamp lon
  let m := gt_m timestamp lon
  let l := gt_l timestamp lon
  let dec := gt_dec timestamp lon
  let j_noon := gt_jnoon timestamp lon
  let time := SunTime.calc SunTime.SUNRISE_SUNSET j_noon dh lw phi dec n m l
  let timeStart := SunTime.calc SunTime.SUNRISE_END_SUNSET_START j_noon dh lw phi dec n m l
  let dawnDusk := SunTime.calc SunTime.DAWN_DUSK j_noon dh lw phi dec n m l
  let nautical := SunTime.calc SunTime.NAUTICAL_DAWN_NAUTICAL_DUSK j_noon dh lw phi dec n m l
  let nightTime := SunTime.calc SunTime.NIGHT_END_NIGHT j_noon dh lw phi dec n m l
  let golden := SunTime.calc SunTime.GOLDEN_HOUR_END_GOLDEN_HOUR j_noon dh lw phi dec n m l
  { solarNoon := fromJulian j_noon
    nadir := fromJulian (j_noon - F.val 0.5)
    sunrise := time.1
    sunset := time.2
    sunrise_end := timeStart.1
    sunsetStart := timeStart.2
    dawn := dawnDusk.1
    dusk := dawnDusk.2
    nauticalDawn := nautical.1
    nauticalDusk := nautical.2
    nightEnd := nightTime.1
    night := nightTime.2
    goldenHourEnd := golden.1
    goldenHour := golden.2 }

-- General moon calculations (src/index.ts lines 500 to 527).

noncomputable def lunarMeanAnomaly (d : F) : F :=
  (F.val 134.963 + F.val 13.064993 * d) * F.val TO_RAD

noncomputable def lunarEclipticLongitude (d : F) : F :=
  (F.val 218.316 + F.val 13.176396 * d) * F.val TO_RAD

noncomputable def lunarMeanDistance (d : F) : F :=
  (F.val 93.272 + F.val 13.229350 * d) * F.val TO_RAD

/-- The geocentric distance 385001 - 20905 * cos(lunarMeanAnomaly d) computed
by moonCoords before its defensive `|| 0` fallback. -/
noncomputable def rawMoonDistance (d : F) : F :=
  F.val 385001.0 - F.val 20905.0 * Fcos (lunarMeanAnomaly d)

noncomputable def mc_lng (d : F) : F :=
  lunarEclipticLongitude d + F.val TO_RAD * F.val 6.289 * Fsin (lunarMeanAnomaly d)

noncomputable def mc_lat (d : F) : F :=
  F.val TO_RAD * F.val 5.128 * Fsin (lunarMeanDistance d)

noncomputable def moonCoords (d : F) : Coords :=
  { rightAscension := rightAscension (mc_lng d) (mc_lat d)
    declination := declination (mc_lng d) (mc_lat d)
    distance := orZero (rawMoonDistance d) }

-- getMoonPosition (src/index.ts lines 530 to 552).  The let bindings are
-- lifted into gmp_lw, gmp_phi, gmp_c, gmp_h and gmp_pa.

noncomputable def gmp_lw (lon : F) : F := F.val TO_RAD * -lon

noncomputable def gmp_phi (lat : F) : F := F.val TO_RAD * lat

noncomputable def gmp_c (timestamp : F) : Coords := moonCoords (toDays timestamp)

noncomputable def gmp_h (timestamp lon : F) : F :=
  siderealTime (toDays timestamp) (gmp_lw lon) - (gmp_c timestamp).rightAscension

/-- The parallactic angle of getMoonPosition before its `|| 0` fallback. -/
noncomputable def gmp_pa (timestamp lat lon : F) : F :=
  Fatan2 (Fsin (gmp_h timestamp lon))
    (Ftan (gmp_phi lat) * Fcos ((gmp_c timestamp).declination) -
     Fsin ((gmp_c timestamp).declination) * Fcos (gmp_h timestamp lon))

noncomputable def getMoonPosition (timestamp lat lon : F) : Position :=
  let alt := altitude (gmp_h timestamp lon) (gmp_phi lat) ((gmp_c timestamp).declination)
  { azimuth := azimuth (gmp_h timestamp lon) (gmp_phi lat) ((gmp_c timestamp).declination)
    altitude := alt + astro_refraction alt
    distance := orZero ((gmp_c timestamp).distance)
    parallacticAngle := orZero (gmp_pa timestamp lat lon) }

-- getMoonIllumination (src/index.ts lines 556 to 583).  The let bindings
-- are lifted into gmi_s, gmi_m, gmi_phi, gmi_inc, gmi_angle, gmi_sign.
-- The local `a = lunarMeanAnomaly(d)` of the source is unused there.

noncomputable def gmi_sdist : F := F.val 149598000.0

noncomputable def gmi_s (timestamp : F) : Coords := sunCoords (toDays timestamp)

noncomputable def gmi_m (timestamp : F) : Coords := moonCoords (toDays timestamp)

noncomputable def gmi_phi (timestamp : F) : F :=
  Facos (Fsin ((gmi_s timestamp).declination) * Fsin ((gmi_m timestamp).declination) +
    Fcos ((gmi_s timestamp).declination) * Fcos ((gmi_m timestamp).declination) *
      Fcos ((gmi_s timestamp).rightAscension - (gmi_m timestamp).rightAscension))

noncomputable def gmi_inc (timestamp : F) : F :=
  Fatan2 (gmi_sdist * Fsin (gmi_phi timestamp))
    ((gmi_m timestamp).distance - gmi_sdist * Fcos (gmi_phi timestamp))

noncomputable def gmi_angle (timestamp : F) : F :=
  Fatan2
    (Fcos ((gmi_s timestamp).declination) *
      Fsin ((gmi_s timestamp).rightAscension - (gmi_m timestamp).rightAscension))
    (Fsin ((gmi_s timestamp).declination) * Fcos ((gmi_m timestamp).declination) -
      Fcos ((gmi_s timestamp).declination) * Fsin ((gmi_m timestamp).declination) *
        Fcos ((gmi_s timestamp).rightAscension - (gmi_m timestamp).rightAscension))

noncomputable def gmi_sign (timestamp : F) : F :=
  match gmi_angle timestamp with
  | F.nan => F.val 1.0
  | F.val a => if a < 0 then F.val (-1.0) else F.val 1.0

noncomputable def getMoonIllumination (timestamp : F) : Illumination :=
  { fraction := (F.val 1.0 + Fcos (gmi_inc timestamp)) / F.val 2.0
    phase := F.val 0.5 + F.val 0.5 * gmi_inc timestamp * gmi_sign timestamp / F.val Real.pi
    angle := gmi_angle timestamp }

-- Helper lemmas about the time conversion pipeline.

theorem floor_intCast_add_half (m : ℤ) : Int.floor ((m : ℝ) + 1 / 2) = m := by
  rw [Int.floor_int_add, Int.floor_eq_zero_iff.mpr (by rw [Set.mem_Ico]; norm_num),
    add_zero]

@[simp] theorem f64ToI64_val (x : ℝ) :
    f64ToI64 (F.val x) = if x ≤ -(2 ^ 63 : ℝ) then -(2 ^ 63)
      else if (2 ^ 63 : ℝ) ≤ x then 2 ^ 63 - 1 else truncR x := rfl

theorem f64ToI64_intCast (m : ℤ) (h1 : -(2 : ℤ) ^ 63 ≤ m) (h2 : m ≤ 2 ^ 63 - 1) :
    f64ToI64 (F.val (m : ℝ)) = m := by
  rw [f64ToI64_val]
  by_cases hlow : ((m : ℝ) ≤ -(2 ^ 63 : ℝ))
  · have h1' : ((-(2 ^ 63) : ℤ) : ℝ) ≤ (m : ℝ) := by exact_mod_cast h1
    have hm : (m : ℝ) = -(2 ^ 63 : ℝ) := by push_cast at h1'; linarith
    have hm' : m = -(2 ^ 63) := by exact_mod_cast hm
    rw [if_pos hlow, hm']
  · rw [if_neg hlow]
    have hhigh : ¬ ((2 ^ 63 : ℝ) ≤ (m : ℝ)) := by
      push_neg
      have h2' : (m : ℝ) ≤ ((2 ^ 63 - 1 : ℤ) : ℝ) := by exact_mod_cast h2
      push_cast at h2'; linarith
    rw [if_neg hhigh]
    unfold truncR
    by_cases hm : (0 : ℝ) ≤ (m : ℝ)
    · rw [if_pos hm, Int.floor_intCast]
    · rw [if_neg hm, Int.ceil_intCast]

theorem fromJulian_val_eq (j : ℝ) (m : ℤ)
    (hj : Int.floor ((j + 0.5 - 2440588) * 86400000 + 1 / 2) = m)
    (h1 : -(2 : ℤ) ^ 63 ≤ m) (h2 : m ≤ 2 ^ 63 - 1) :
    fromJulian (F.val j) = i64ToU64 m := by
  unfold fromJulian
  rw [show ((J1970 : ℕ) : ℝ) = 2440588 from by norm_num [J1970],
    show ((MILLISECONDS_PER_DAY : ℕ) : ℝ) = 86400000 from by
      norm_num [MILLISECONDS_PER_DAY]]
  simp only [val_add, val_sub, val_mul, jsRound_val]
  rw [hj, f64ToI64_intCast m h1 h2]

theorem toJulian_val (t : ℝ) :
    toJulian (F.val t) = F.val (t / 86400000 - 0.5 + 2440588) := by
  unfold toJulian
  rw [show ((J1970 : ℕ) : ℝ) = 2440588 from by norm_num [J1970],
    show ((MILLISECONDS_PER_DAY : ℕ) : ℝ) = 86400000 from by
      norm_num [MILLISECONDS_PER_DAY]]
  rw [val_div _ _ (by norm_num)]
  simp only [val_sub, val_add]

theorem fromJulian_toJulian_int (m : ℤ) (h1 : -(2 : ℤ) ^ 63 ≤ m)
    (h2 : m ≤ 2 ^ 63 - 1) :
    fromJulian (toJulian (F.val (m : ℝ))) = i64ToU64 m := by
  rw [toJulian_val]
  apply fromJulian_val_eq _ m _ h1 h2
  have hs : ((m : ℝ) / 86400000 - 0.5 + 2440588 + 0.5 - 2440588) * 86400000
      = (m : ℝ) := by
    rw [show ((m : ℝ) / 86400000 - 0.5 + 2440588 + 0.5 - 2440588)
        = (m : ℝ) / 86400000 from by ring]
    rw [div_mul_cancel₀ _ (by norm_num)]
  rw [hs, floor_intCast_add_half]

theorem fromJulian_half_aux (n : ℤ) (h1 : -(2 : ℤ) ^ 63 ≤ n + 1)
    (h2 : n + 1 ≤ 2 ^ 63 - 1) :
    fromJulian (F.val (((n : ℝ) + 1 / 2) / 86400000 + 2440587.5))
      = i64ToU64 (n + 1) := by
  apply fromJulian_val_eq _ (n + 1) _ h1 h2
  have hs : (((n : ℝ) + 1 / 2) / 86400000 + 2440587.5 + 0.5 - 2440588) * 86400000
      = (n : ℝ) + 1 / 2 := by
    rw [show ((n : ℝ) + 1 / 2) / 86400000 + 2440587.5 + 0.5 - 2440588
        = ((n : ℝ) + 1 / 2) / 86400000 from by ring]
    rw [div_mul_cancel₀ _ (by norm_num)]
  rw [hs, show (n : ℝ) + 1 / 2 + 1 / 2 = ((n + 1 : ℤ) : ℝ) from by push_cast; ring,
    Int.floor_intCast]

-- Claim C3.

/-- Claim C3 (amended): for every non-negative epoch-millisecond timestamp t
up to the i64 maximum, the round trip fromJulian (toJulian t) returns t
exactly, hence within 1 millisecond.  For negative timestamps the u64 return
type of fromJulian makes the round trip wrap modulo 2 ^ 64 instead, see the
counterexample. -/
theorem fromJulian_toJulian_roundtrip_nonneg (m : ℤ) (h0 : 0 ≤ m)
    (h2 : m ≤ 2 ^ 63 - 1) :
    fromJulian (toJulian (F.val (m : ℝ))) = m.toNat := by
  rw [fromJulian_toJulian_int m (by linarith) h2]
  unfold i64ToU64
  omega

/-- Claim C3 (witness): the round trip at timestamp 3 returns 3. -/
theorem fromJulian_toJulian_roundtrip_nonneg_witness :
    fromJulian (toJulian (F.val ((3 : ℤ) : ℝ))) = 3 := by
  have h := fromJulian_toJulian_roundtrip_nonneg 3 (by norm_num) (by norm_num)
  simpa using h

/-- Claim C3 (counterexample): at the negative epoch-millisecond timestamp
-86400000 the round trip returns 2 ^ 64 - 86400000, which differs from the
input by far more than 1 millisecond. -/
theorem fromJulian_toJulian_roundtrip_neg_counterexample :
    fromJulian (toJulian (F.val ((-86400000 : ℤ) : ℝ))) = 18446744073623151616 ∧
      ¬ ((18446744073623151616 : ℤ) - (-86400000) ≤ 1) := by
  refine ⟨?_, by norm_num⟩
  rw [fromJulian_toJulian_int (-86400000) (by norm_num) (by norm_num)]
  unfold i64ToU64
  omega

-- Claim C7.

/-- Claim C7 (amended): the source type Timestamp is u64, not a signed i64.
fromJulian computes a signed 64-bit value and reinterprets it as unsigned,
so for every pre-epoch timestamp m (negative, within i64 range) the
round-tripped output is the wrap-around value 2 ^ 64 + m, not the negative
signed value itself. -/
theorem fromJulian_pre_epoch_wraps (m : ℤ) (h1 : -(2 : ℤ) ^ 63 ≤ m)
    (h2 : m < 0) :
    fromJulian (toJulian (F.val (m : ℝ))) = ((2 : ℤ) ^ 64 + m).toNat := by
  rw [fromJulian_toJulian_int m h1 (by linarith)]
  unfold i64ToU64
  omega

/-- Claim C7 (witness): at timestamp -1 the returned value is 2 ^ 64 - 1. -/
theorem fromJulian_pre_epoch_wraps_witness :
    fromJulian (toJulian (F.val ((-1 : ℤ) : ℝ))) = 18446744073709551615 := by
  have h := fromJulian_pre_epoch_wraps (-1) (by norm_num) (by norm_num)
  rw [h]
  omega

/-- Claim C7 (counterexample): the Julian day 2440587 is one half day before
the epoch; the exact scaled value is -43200000 milliseconds, but fromJulian
returns the unsigned wrap-around 2 ^ 64 - 43200000, not a negative signed
value. -/
theorem fromJulian_unsigned_counterexample :
    fromJulian (F.val 2440587) = 18446744073666351616 ∧
      (18446744073666351616 : ℤ) ≠ -43200000 := by
  refine ⟨?_, by norm_num⟩
  have h := fromJulian_val_eq 2440587 (-43200000) ?_ (by norm_num) (by norm_num)
  · rw [h]; unfold i64ToU64; omega
  · rw [show ((2440587 : ℝ) + 0.5 - 2440588) * 86400000
        = ((-43200000 : ℤ) : ℝ) from by push_cast; ring]
    exact floor_intCast_add_half _

-- Claim C8.

/-- Claim C8 (amended): fromJulian rounds with the JavaScript Math.round
rule, nearest with ties toward positive infinity, not half away from zero:
a Julian day whose scaled millisecond value is exactly n + 1/2 is mapped to
n + 1; in particular negative exact halves round to the less negative
integer. -/
theorem fromJulian_rounds_ties_up (n : ℤ) (h1 : -(2 : ℤ) ^ 63 ≤ n + 1)
    (h2 : n + 1 ≤ 2 ^ 63 - 1) :
    fromJulian (F.val (((n : ℝ) + 1 / 2) / 86400000 + 2440587.5))
      = i64ToU64 (n + 1) :=
  fromJulian_half_aux n h1 h2

/-- Claim C8 (witness): the scaled value 5 + 1/2 rounds to 6. -/
theorem fromJulian_rounds_ties_up_witness :
    fromJulian (F.val ((((5 : ℤ) : ℝ) + 1 / 2) / 86400000 + 2440587.5)) = 6 := by
  have h := fromJulian_rounds_ties_up 5 (by norm_num) (by norm_num)
  rw [h]
  unfold i64ToU64
  omega

/-- Claim C8 (counterexample): the scaled value -1 + 1/2 = -0.5 rounds to 0
(the integer nearer to zero), not to the more negative integer -1, whose u64
image would be 2 ^ 64 - 1. -/
theorem fromJulian_neg_half_counterexample :
    fromJulian (F.val ((((-1 : ℤ) : ℝ) + 1 / 2) / 86400000 + 2440587.5)) = 0 ∧
      (0 : ℕ) ≠ 18446744073709551615 := by
  refine ⟨?_, by norm_num⟩
  have h := fromJulian_half_aux (-1) (by norm_num) (by norm_num)
  rw [h]
  unfold i64ToU64
  omega

-- NaN propagation through the sun-times solver.

theorem fromJulian_nan : fromJulian F.nan = 0 := by
  unfold fromJulian
  simp only [nan_add, nan_sub, nan_mul, jsRound_nan, f64ToI64_nan]
  unfold i64ToU64
  omega

theorem get_set_j_nan (h lw phi dec n m l : F)
    (hna : hourAngle h phi dec = F.nan) :
    get_set_j h lw phi dec n m l = F.nan := by
  unfold get_set_j approxTransit solarTransitJ
  rw [hna]
  simp

theorem calc_zero_of_hourAngle_nan (s : SunTime) (j_noon dh lw phi dec n m l : F)
    (hna : hourAngle ((s.value + dh) * F.val Real.pi / F.val 180.0) phi dec
      = F.nan) :
    SunTime.calc s j_noon dh lw phi dec n m l = (0, 0) := by
  have hset : sunTimeJSet s dh lw phi dec n m l = F.nan := by
    unfold sunTimeJSet
    exact get_set_j_nan _ _ _ _ _ _ _ hna
  have hrise : sunTimeJRise s j_noon dh lw phi dec n m l = F.nan := by
    unfold sunTimeJRise
    rw [hset]
    simp
  unfold SunTime.calc
  rw [hset, hrise, fromJulian_nan]

theorem hourAngle_nan_of_cos_zero (h0 : F) (p : ℝ) (hp : Real.cos p = 0)
    (dec : F) : hourAngle h0 (F.val p) dec = F.nan := by
  cases h0 <;> cases dec <;>
    simp [hourAngle, hp, val_div_zero, zero_mul]

-- Claim C1.

/-- Claim C1 (amended): when the night threshold is never crossed, so that
the hour-angle computation for the night pair yields NaN, getTimes does not
return NaN in the night and nightEnd fields: the output type Timestamp is
the integer type u64, the NaN Julian moment reaches the f64-to-i64 cast
inside fromJulian, and the nontrapping cast converts it to 0, so both fields
hold the integer 0.  No error is raised. -/
theorem getTimes_night_zero_of_hourAngle_nan (t lat lon h : F)
    (hna : hourAngle
      ((SunTime.NIGHT_END_NIGHT.value + observerAngle h) * F.val Real.pi /
        F.val 180.0) (gt_phi lat) (gt_dec t lon) = F.nan) :
    (getTimes t lat lon h).night = 0 ∧ (getTimes t lat lon h).nightEnd = 0 := by
  have hc := calc_zero_of_hourAngle_nan SunTime.NIGHT_END_NIGHT (gt_jnoon t lon)
    (observerAngle h) (gt_lw lon) (gt_phi lat) (gt_dec t lon) (gt_n t lon)
    (gt_m t lon) (gt_l t lon) hna
  constructor <;> (simp only [getTimes]; rw [hc])

/-- Claim C1 (witness): at the north pole (latitude 90) the cosine of the
latitude vanishes, the hour-angle division is degenerate for the night
threshold, and the night and nightEnd fields of getTimes are the integer 0. -/
theorem getTimes_night_zero_witness :
    (getTimes (F.val 0) (F.val 90) (F.val 0) (F.val 0)).night = 0 ∧
      (getTimes (F.val 0) (F.val 90) (F.val 0) (F.val 0)).nightEnd = 0 := by
  apply getTimes_night_zero_of_hourAngle_nan
  show hourAngle _ (F.val (90 * TO_RAD)) _ = F.nan
  apply hourAngle_nan_of_cos_zero
  rw [show (90 : ℝ) * TO_RAD = Real.pi / 2 from by unfold TO_RAD; ring]
  exact Real.cos_pi_div_two

/-- Claim C1 (counterexample): a NaN Julian moment does not propagate
through fromJulian to the output: fromJulian applied to NaN returns the
integer 0, and correspondingly the night field of getTimes at a polar
input is the integer 0, not NaN. -/
theorem getTimes_night_nan_counterexample :
    fromJulian F.nan = 0 ∧
      (getTimes (F.val 1) (F.val 90) (F.val 0) (F.val 0)).night = 0 := by
  refine ⟨fromJulian_nan, ?_⟩
  have hna : hourAngle
      ((SunTime.NIGHT_END_NIGHT.value + observerAngle (F.val 0)) *
        F.val Real.pi / F.val 180.0) (gt_phi (F.val 90))
      (gt_dec (F.val 1) (F.val 0)) = F.nan := by
    show hourAngle _ (F.val (90 * TO_RAD)) _ = F.nan
    apply hourAngle_nan_of_cos_zero
    rw [show (90 : ℝ) * TO_RAD = Real.pi / 2 from by unfold TO_RAD; ring]
    exact Real.cos_pi_div_two
  have hc := calc_zero_of_hourAngle_nan SunTime.NIGHT_END_NIGHT
    (gt_jnoon (F.val 1) (F.val 0)) (observerAngle (F.val 0)) (gt_lw (F.val 0))
    (gt_phi (F.val 90)) (gt_dec (F.val 1) (F.val 0)) (gt_n (F.val 1) (F.val 0))
    (gt_m (F.val 1) (F.val 0)) (gt_l (F.val 1) (F.val 0)) hna
  simp only [getTimes]
  rw [hc]

-- Claim C6.

/-- Claim C6: for every altitude threshold and all solver inputs, the
mirrored rise moment satisfies j_noon - j_rise = j_set - j_noon, by
construction of the mirroring step j_rise = j_noon - (j_set - j_noon); with
exact real payloads the identity is exact, and when any input is NaN both
sides are NaN. -/
theorem suntime_mirror_symmetry (s : SunTime) (j_noon dh lw phi dec n m l : F) :
    j_noon - sunTimeJRise s j_noon dh lw phi dec n m l
      = sunTimeJSet s dh lw phi dec n m l - j_noon := by
  unfold sunTimeJRise
  generalize sunTimeJSet s dh lw phi dec n m l = js
  cases j_noon with
  | nan => cases js <;> simp
  | val a =>
    cases js with
    | nan => simp
    | val b =>
      simp only [val_sub]
      exact congrArg F.val (by ring)

-- Claim C4.

theorem add_val_zero (x : F) : x + F.val 0 = x := by
  cases x <;> simp

/-- Reference formulation for claim C4: the observer-height correction dh is
folded directly into each of the six threshold constants, and the dh
argument of calc is set to zero.  Claim C4 states that getTimes is exactly
this uniformly shifted computation. -/
noncomputable def getTimesUniformShift (timestamp lat lon h : F) : SunTimes :=
  let lw := gt_lw lon
  let phi := gt_phi lat
  let dh := observerAngle h
  let n := gt_n timestamp lon
  let m := gt_m timestamp lon
  let l := gt_l timestamp lon
  let dec := gt_dec timestamp lon
  let j_noon := gt_jnoon timestamp lon
  let time := SunTime.calc ⟨SunTime.SUNRISE_SUNSET.value + dh⟩ j_noon (F.val 0) lw phi dec n m l
  let timeStart := SunTime.calc ⟨SunTime.SUNRISE_END_SUNSET_START.value + dh⟩ j_noon (F.val 0) lw phi dec n m l
  let dawnDusk := SunTime.calc ⟨SunTime.DAWN_DUSK.value + dh⟩ j_noon (F.val 0) lw phi dec n m l
  let nautical := SunTime.calc ⟨SunTime.NAUTICAL_DAWN_NAUTICAL_DUSK.value + dh⟩ j_noon (F.val 0) lw phi dec n m l
  let nightTime := SunTime.calc ⟨SunTime.NIGHT_END_NIGHT.value + dh⟩ j_noon (F.val 0) lw phi dec n m l
  let golden := SunTime.calc ⟨SunTime.GOLDEN_HOUR_END_GOLDEN_HOUR.value + dh⟩ j_noon (F.val 0) lw phi dec n m l
  { solarNoon := fromJulian j_noon
    nadir := fromJulian (j_noon - F.val 0.5)
    sunrise := time.1
    sunset := time.2
    sunrise_end := timeStart.1
    sunsetStart := timeStart.2
    dawn := dawnDusk.1
    dusk := dawnDusk.2
    nauticalDawn := nautical.1
    nauticalDusk := nautical.2
    nightEnd := nightTime.1
    night := nightTime.2
    goldenHourEnd := golden.1
    goldenHour := golden.2 }

theorem calc_shift (v j_noon dh lw phi dec n m l : F) :
    SunTime.calc ⟨v⟩ j_noon dh lw phi dec n m l
      = SunTime.calc ⟨v + dh⟩ j_noon (F.val 0) lw phi dec n m l := by
  unfold SunTime.calc sunTimeJRise sunTimeJSet
  rw [show (SunTime.mk (v + dh)).value + F.val 0 = (SunTime.mk v).value + dh from
    add_val_zero _]

/-- Claim C4: in every call of getTimes the observer-height correction
dh = -2.076 * sqrt height / 60 is added to the altitude threshold of every
one of the six threshold pairs before the hour-angle computation, uniformly:
getTimes coincides with the reference computation in which each of the six
thresholds is shifted by dh and no further correction is applied; and for
every non-negative real height the correction has exactly the stated form. -/
theorem getTimes_uniform_height_shift :
    (∀ t lat lon h : F, getTimes t lat lon h = getTimesUniformShift t lat lon h)
      ∧ (∀ hm : ℝ, 0 ≤ hm →
          observerAngle (F.val hm) = F.val (-2.076 * Real.sqrt hm / 60)) := by
  constructor
  · intro t lat lon h
    have h1 := calc_shift (F.val (-0.833)) (gt_jnoon t lon) (observerAngle h)
      (gt_lw lon) (gt_phi lat) (gt_dec t lon) (gt_n t lon) (gt_m t lon) (gt_l t lon)
    have h2 := calc_shift (F.val (-0.3)) (gt_jnoon t lon) (observerAngle h)
      (gt_lw lon) (gt_phi lat) (gt_dec t lon) (gt_n t lon) (gt_m t lon) (gt_l t lon)
    have h3 := calc_shift (F.val (-6.0)) (gt_jnoon t lon) (observerAngle h)
      (gt_lw lon) (gt_phi lat) (gt_dec t lon) (gt_n t lon) (gt_m t lon) (gt_l t lon)
    have h4 := calc_shift (F.val (-12.0)) (gt_jnoon t lon) (observerAngle h)
      (gt_lw lon) (gt_phi lat) (gt_dec t lon) (gt_n t lon) (gt_m t lon) (gt_l t lon)
    have h5 := calc_shift (F.val (-18.0)) (gt_jnoon t lon) (observerAngle h)
      (gt_lw lon) (gt_phi lat) (gt_dec t lon) (gt_n t lon) (gt_m t lon) (gt_l t lon)
    have h6 := calc_shift (F.val 6.0) (gt_jnoon t lon) (observerAngle h)
      (gt_lw lon) (gt_phi lat) (gt_dec t lon) (gt_n t lon) (gt_m t lon) (gt_l t lon)
    simp only [getTimes, getTimesUniformShift, SunTime.SUNRISE_SUNSET,
      SunTime.SUNRISE_END_SUNSET_START, SunTime.DAWN_DUSK,
      SunTime.NAUTICAL_DAWN_NAUTICAL_DUSK, SunTime.NIGHT_END_NIGHT,
      SunTime.GOLDEN_HOUR_END_GOLDEN_HOUR]
    rw [h1, h2, h3, h4, h5, h6]
  · intro hm h0
    unfold observerAngle
    rw [sqrt_val_of_nonneg hm h0, val_mul, val_div _ _ (by norm_num)]
    norm_num

/-- Claim C4 (witness): the uniform-shift identity at one concrete input,
and the correction formula at height 4. -/
theorem getTimes_uniform_height_shift_witness :
    getTimes (F.val 0) (F.val 10) (F.val 20) (F.val 30)
        = getTimesUniformShift (F.val 0) (F.val 10) (F.val 20) (F.val 30) ∧
      observerAngle (F.val 4) = F.val (-2.076 * Real.sqrt 4 / 60) :=
  ⟨getTimes_uniform_height_shift.1 _ _ _ _,
   getTimes_uniform_height_shift.2 4 (by norm_num)⟩

-- Claim C9.

/-- Claim C9: the `|| 0` fallbacks of the Moon code: whenever the raw
geocentric distance of moonCoords is NaN or exactly 0, the distance field of
the returned Coords is 0; whenever the raw parallactic angle of
getMoonPosition is NaN or exactly 0, the parallacticAngle field of the
returned Position is 0; and whenever the distance carried by the moon
coordinates is NaN or exactly 0, the distance field of the returned Position
is 0.  Degenerate values are replaced by 0 rather than propagated. -/
theorem moon_degenerate_normalized_to_zero :
    (∀ d : F, rawMoonDistance d = F.nan ∨ rawMoonDistance d = F.val 0 →
        (moonCoords d).distance = F.val 0)
      ∧ (∀ t lat lon : F, gmp_pa t lat lon = F.nan ∨ gmp_pa t lat lon = F.val 0 →
          (getMoonPosition t lat lon).parallacticAngle = F.val 0)
      ∧ (∀ t lat lon : F,
          (gmp_c t).distance = F.nan ∨ (gmp_c t).distance = F.val 0 →
          (getMoonPosition t lat lon).distance = F.val 0) := by
  refine ⟨?_, ?_, ?_⟩
  · intro d hd
    show orZero (rawMoonDistance d) = F.val 0
    rcases hd with hd | hd <;> rw [hd] <;> simp
  · intro t lat lon hp
    show orZero (gmp_pa t lat lon) = F.val 0
    rcases hp with hp | hp <;> rw [hp] <;> simp
  · intro t lat lon hc
    show orZero ((gmp_c t).distance) = F.val 0
    rcases hc with hc | hc <;> rw [hc] <;> simp

/-- Claim C9 (witness): at a NaN timestamp the raw lunar distance and the
raw parallactic angle are NaN, and both normalized outputs are 0. -/
theorem moon_degenerate_normalized_to_zero_witness :
    (moonCoords F.nan).distance = F.val 0 ∧
      (getMoonPosition F.nan (F.val 0) (F.val 0)).parallacticAngle = F.val 0 := by
  constructor
  · exact moon_degenerate_normalized_to_zero.1 F.nan (Or.inl (by
      unfold rawMoonDistance lunarMeanAnomaly; simp))
  · exact moon_degenerate_normalized_to_zero.2.1 F.nan (F.val 0) (F.val 0)
      (Or.inl (by
        unfold gmp_pa gmp_h gmp_c moonCoords mc_lng mc_lat rawMoonDistance
          declination rightAscension lunarEclipticLongitude lunarMeanAnomaly
          lunarMeanDistance siderealTime toDays toJulian gmp_lw gmp_phi
        simp))

-- Claim C10.

theorem rawMoonDistance_val (d : ℝ) :
    rawMoonDistance (F.val d)
      = F.val (385001 - 20905 * Real.cos ((134.963 + 13.064993 * d) * TO_RAD)) := by
  unfold rawMoonDistance lunarMeanAnomaly
  norm_num

theorem moonDistance_pos (d : ℝ) :
    0 < 385001 - 20905 * Real.cos ((134.963 + 13.064993 * d) * TO_RAD) := by
  have h := Real.cos_le_one ((134.963 + 13.064993 * d) * TO_RAD)
  nlinarith

/-- Claim C10: for every finite day value d the distance field of
moonCoords d equals 385001 - 20905 * cos (lunarMeanAnomaly d), lies between
364096 and 405906 kilometers, is strictly positive, and is exactly the raw
distance: the `|| 0` fallback never alters it on finite inputs. -/
theorem moonCoords_distance_formula_and_bounds (d : ℝ) :
    (moonCoords (F.val d)).distance
        = F.val (385001 - 20905 * Real.cos ((134.963 + 13.064993 * d) * TO_RAD))
      ∧ lunarMeanAnomaly (F.val d) = F.val ((134.963 + 13.064993 * d) * TO_RAD)
      ∧ 364096 ≤ 385001 - 20905 * Real.cos ((134.963 + 13.064993 * d) * TO_RAD)
      ∧ 385001 - 20905 * Real.cos ((134.963 + 13.064993 * d) * TO_RAD) ≤ 405906
      ∧ (moonCoords (F.val d)).distance = rawMoonDistance (F.val d) := by
  have hformula := rawMoonDistance_val d
  have hpos := moonDistance_pos d
  have hdist : (moonCoords (F.val d)).distance = rawMoonDistance (F.val d) := by
    show orZero (rawMoonDistance (F.val d)) = rawMoonDistance (F.val d)
    rw [hformula]
    exact orZero_val_of_ne _ (ne_of_gt hpos)
  refine ⟨hdist.trans hformula, ?_, ?_, ?_, hdist⟩
  · unfold lunarMeanAnomaly; norm_num
  · have h := Real.cos_le_one ((134.963 + 13.064993 * d) * TO_RAD)
    nlinarith
  · have h := Real.neg_one_le_cos ((134.963 + 13.064993 * d) * TO_RAD)
    nlinarith

-- Claim C2.

theorem toDays_nan : toDays F.nan = F.nan := by
  unfold toDays toJulian
  simp

theorem sunCoords_nan : sunCoords F.nan = ⟨F.nan, F.nan, F.val 0⟩ := by
  unfold sunCoords declination rightAscension eclipticLongitude
    equationOfCenter solar_mean_anomaly
  simp

theorem moonCoords_nan : moonCoords F.nan = ⟨F.nan, F.nan, F.val 0⟩ := by
  unfold moonCoords mc_lng mc_lat rawMoonDistance declination rightAscension
    lunarEclipticLongitude lunarMeanAnomaly lunarMeanDistance
  simp

theorem gmi_s_nan : gmi_s F.nan = ⟨F.nan, F.nan, F.val 0⟩ := by
  unfold gmi_s
  rw [toDays_nan, sunCoords_nan]

theorem gmi_m_nan : gmi_m F.nan = ⟨F.nan, F.nan, F.val 0⟩ := by
  unfold gmi_m
  rw [toDays_nan, moonCoords_nan]

theorem gmi_phi_nan : gmi_phi F.nan = F.nan := by
  unfold gmi_phi
  rw [gmi_s_nan, gmi_m_nan]
  simp

theorem gmi_inc_nan : gmi_inc F.nan = F.nan := by
  unfold gmi_inc
  rw [gmi_m_nan, gmi_phi_nan]
  simp [gmi_sdist]

theorem gmi_angle_nan : gmi_angle F.nan = F.nan := by
  unfold gmi_angle
  rw [gmi_s_nan, gmi_m_nan]
  simp

/-- Claim C2 (amended): getMoonIllumination performs no NaN normalization:
whenever the computed phase angle inc is NaN the returned fraction is NaN,
and whenever the computed bright-limb angle is NaN the returned angle field
is NaN; neither is replaced by 0. -/
theorem getMoonIllumination_propagates_nan (t : F)
    (hinc : gmi_inc t = F.nan) (hang : gmi_angle t = F.nan) :
    (getMoonIllumination t).fraction = F.nan ∧
      (getMoonIllumination t).angle = F.nan := by
  constructor
  · show (F.val 1.0 + Fcos (gmi_inc t)) / F.val 2.0 = F.nan
    rw [hinc]
    simp
  · exact hang

/-- Claim C2 (witness): at the NaN timestamp both the phase angle and the
bright-limb angle are NaN, and the returned fraction and angle fields
are NaN. -/
theorem getMoonIllumination_propagates_nan_witness :
    (getMoonIllumination F.nan).fraction = F.nan ∧
      (getMoonIllumination F.nan).angle = F.nan :=
  getMoonIllumination_propagates_nan F.nan gmi_inc_nan gmi_angle_nan

/-- Claim C2 (counterexample): at the NaN timestamp the illuminated fraction
evaluates to NaN, and the returned Illumination carries NaN, not 0, in that
field. -/
theorem getMoonIllumination_no_fallback_counterexample :
    (getMoonIllumination F.nan).fraction = F.nan ∧ F.nan ≠ F.val 0 := by
  constructor
  · show (F.val 1.0 + Fcos (gmi_inc F.nan)) / F.val 2.0 = F.nan
    rw [gmi_inc_nan]
    simp
  · intro h
    exact F.noConfusion h

-- Claim C5: range lemmas.

theorem decl_arg_bounds (e b l : ℝ) :
    -1 ≤ Real.sin b * Real.cos e + Real.cos b * Real.sin e * Real.sin l ∧
      Real.sin b * Real.cos e + Real.cos b * Real.sin e * Real.sin l ≤ 1 := by
  have hb := Real.sin_sq_add_cos_sq b
  have he := Real.sin_sq_add_cos_sq e
  have hl := Real.sin_sq_add_cos_sq l
  have hkey : (Real.sin b * Real.cos e + Real.cos b * Real.sin e * Real.sin l) ^ 2
      = 1 - (Real.sin e * Real.cos l) ^ 2 -
        (Real.sin b * (Real.sin e * Real.sin l) - Real.cos b * Real.cos e) ^ 2 := by
    linear_combination (Real.cos e ^ 2 + Real.sin e ^ 2 * Real.sin l ^ 2) * hb +
      Real.sin e ^ 2 * hl + he
  have key : (Real.sin b * Real.cos e + Real.cos b * Real.sin e * Real.sin l) ^ 2
      ≤ 1 := by
    rw [hkey]
    have h1 := sq_nonneg (Real.sin e * Real.cos l)
    have h2 := sq_nonneg (Real.sin b * (Real.sin e * Real.sin l) -
      Real.cos b * Real.cos e)
    linarith
  constructor <;>
    nlinarith [key,
      sq_nonneg (Real.sin b * Real.cos e + Real.cos b * Real.sin e * Real.sin l + 1),
      sq_nonneg (Real.sin b * Real.cos e + Real.cos b * Real.sin e * Real.sin l - 1)]

theorem sep_arg_bounds (a b c : ℝ) :
    -1 ≤ Real.sin a * Real.sin b + Real.cos a * Real.cos b * Real.cos c ∧
      Real.sin a * Real.sin b + Real.cos a * Real.cos b * Real.cos c ≤ 1 := by
  have ha := Real.sin_sq_add_cos_sq a
  have hb := Real.sin_sq_add_cos_sq b
  have hc := Real.sin_sq_add_cos_sq c
  have hkey : (Real.sin a * Real.sin b + Real.cos a * Real.cos b * Real.cos c) ^ 2
      = 1 - (Real.cos b * Real.sin c) ^ 2 -
        (Real.sin a * (Real.cos b * Real.cos c) - Real.cos a * Real.sin b) ^ 2 := by
    linear_combination (Real.sin b ^ 2 + Real.cos b ^ 2 * Real.cos c ^ 2) * ha +
      Real.cos b ^ 2 * hc + hb
  have key : (Real.sin a * Real.sin b + Real.cos a * Real.cos b * Real.cos c) ^ 2
      ≤ 1 := by
    rw [hkey]
    have h1 := sq_nonneg (Real.cos b * Real.sin c)
    have h2 := sq_nonneg (Real.sin a * (Real.cos b * Real.cos c) -
      Real.cos a * Real.sin b)
    linarith
  constructor <;>
    nlinarith [key,
      sq_nonneg (Real.sin a * Real.sin b + Real.cos a * Real.cos b * Real.cos c + 1),
      sq_nonneg (Real.sin a * Real.sin b + Real.cos a * Real.cos b * Real.cos c - 1)]

theorem declination_val_shape (l b : ℝ) :
    declination (F.val l) (F.val b)
      = F.val (Real.arcsin (Real.sin b * Real.cos OBLIQUITY_OF_EARTH +
          Real.cos b * Real.sin OBLIQUITY_OF_EARTH * Real.sin l)) := by
  unfold declination
  simp only [sin_val, cos_val, val_mul, val_add]
  exact asin_val_of_mem _ (decl_arg_bounds OBLIQUITY_OF_EARTH b l).1
    (decl_arg_bounds OBLIQUITY_OF_EARTH b l).2

theorem rightAscension_val_shape (l b : ℝ) :
    rightAscension (F.val l) (F.val b)
      = F.val (Complex.arg ⟨Real.cos l,
          Real.sin l * Real.cos OBLIQUITY_OF_EARTH -
            Real.tan b * Real.sin OBLIQUITY_OF_EARTH⟩) := by
  unfold rightAscension
  simp only [sin_val, cos_val, tan_val, val_mul, val_sub, atan2_val]

theorem toDays_val (t : ℝ) :
    toDays (F.val t) = F.val (t / 86400000 - 0.5 + 2440588 - 2451545) := by
  unfold toDays
  rw [toJulian_val, show ((J2000 : ℕ) : ℝ) = 2451545 from by norm_num [J2000]]
  simp only [val_sub]

theorem sunCoords_val_shape (d : ℝ) :
    ∃ ra dec : ℝ, sunCoords (F.val d) = ⟨F.val ra, F.val dec, F.val 0⟩ := by
  unfold sunCoords
  have hm : solar_mean_anomaly (F.val d)
      = F.val ((357.5291 + 0.98560028 * d) * TO_RAD) := by
    unfold solar_mean_anomaly
    simp only [val_mul, val_add]
  have hl : ∃ x, eclipticLongitude (F.val ((357.5291 + 0.98560028 * d) * TO_RAD))
      = F.val x := by
    unfold eclipticLongitude equationOfCenter
    simp only [val_mul, sin_val, val_add]
    exact ⟨_, rfl⟩
  obtain ⟨lv, hl⟩ := hl
  simp only [hm, hl, declination_val_shape, rightAscension_val_shape]
  exact ⟨_, _, rfl⟩

theorem moonCoords_val_shape (d : ℝ) :
    ∃ ra dec dist : ℝ,
      moonCoords (F.val d) = ⟨F.val ra, F.val dec, F.val dist⟩ ∧ 0 < dist := by
  unfold moonCoords
  have hlng : ∃ x, mc_lng (F.val d) = F.val x := by
    unfold mc_lng lunarEclipticLongitude lunarMeanAnomaly
    simp only [val_mul, val_add, sin_val]
    exact ⟨_, rfl⟩
  have hlat : ∃ x, mc_lat (F.val d) = F.val x := by
    unfold mc_lat lunarMeanDistance
    simp only [val_mul, val_add, sin_val]
    exact ⟨_, rfl⟩
  obtain ⟨lngv, hlng⟩ := hlng
  obtain ⟨latv, hlat⟩ := hlat
  rw [hlng, hlat, declination_val_shape, rightAscension_val_shape,
    rawMoonDistance_val, orZero_val_of_ne _ (ne_of_gt (moonDistance_pos d))]
  exact ⟨_, _, _, rfl, moonDistance_pos d⟩

theorem arg_mem_of_im_nonneg (x y : ℝ) (hy : 0 ≤ y) :
    0 ≤ Complex.arg ⟨x, y⟩ ∧ Complex.arg ⟨x, y⟩ ≤ Real.pi :=
  ⟨Complex.arg_nonneg_iff.mpr hy, Complex.arg_le_pi _⟩

theorem gmi_phi_val_shape (t : ℝ) :
    ∃ p : ℝ, gmi_phi (F.val t) = F.val p ∧ 0 ≤ p ∧ p ≤ Real.pi := by
  obtain ⟨ras, decs, hs⟩ := sunCoords_val_shape (t / 86400000 - 0.5 + 2440588 - 2451545)
  obtain ⟨ram, decm, distm, hm, hdist⟩ :=
    moonCoords_val_shape (t / 86400000 - 0.5 + 2440588 - 2451545)
  have hsc : gmi_s (F.val t) = ⟨F.val ras, F.val decs, F.val 0⟩ := by
    unfold gmi_s
    rw [toDays_val, hs]
  have hmc : gmi_m (F.val t) = ⟨F.val ram, F.val decm, F.val distm⟩ := by
    unfold gmi_m
    rw [toDays_val, hm]
  unfold gmi_phi
  rw [hsc, hmc]
  simp only [sin_val, cos_val, val_mul, val_add, val_sub]
  rw [acos_val_of_mem _ (sep_arg_bounds decs decm (ras - ram)).1
    (sep_arg_bounds decs decm (ras - ram)).2]
  exact ⟨_, rfl, Real.arccos_nonneg _, Real.arccos_le_pi _⟩

theorem gmi_inc_val_shape (t : ℝ) :
    ∃ iv : ℝ, gmi_inc (F.val t) = F.val iv ∧ 0 ≤ iv ∧ iv ≤ Real.pi := by
  obtain ⟨p, hp, hp0, hppi⟩ := gmi_phi_val_shape t
  obtain ⟨ram, decm, distm, hm, hdist⟩ :=
    moonCoords_val_shape (t / 86400000 - 0.5 + 2440588 - 2451545)
  have hmc : gmi_m (F.val t) = ⟨F.val ram, F.val decm, F.val distm⟩ := by
    unfold gmi_m
    rw [toDays_val, hm]
  unfold gmi_inc
  rw [hmc, hp]
  simp only [gmi_sdist, sin_val, cos_val, val_mul, val_sub, atan2_val]
  have hy : (0 : ℝ) ≤ 149598000.0 * Real.sin p :=
    mul_nonneg (by norm_num) (Real.sin_nonneg_of_nonneg_of_le_pi hp0 hppi)
  exact ⟨_, rfl, (arg_mem_of_im_nonneg _ _ hy).1, (arg_mem_of_im_nonneg _ _ hy).2⟩

theorem gmi_angle_val_shape (t : ℝ) : ∃ av : ℝ, gmi_angle (F.val t) = F.val av := by
  obtain ⟨ras, decs, hs⟩ := sunCoords_val_shape (t / 86400000 - 0.5 + 2440588 - 2451545)
  obtain ⟨ram, decm, distm, hm, hdist⟩ :=
    moonCoords_val_shape (t / 86400000 - 0.5 + 2440588 - 2451545)
  have hsc : gmi_s (F.val t) = ⟨F.val ras, F.val decs, F.val 0⟩ := by
    unfold gmi_s
    rw [toDays_val, hs]
  have hmc : gmi_m (F.val t) = ⟨F.val ram, F.val decm, F.val distm⟩ := by
    unfold gmi_m
    rw [toDays_val, hm]
  unfold gmi_angle
  rw [hsc, hmc]
  simp only [sin_val, cos_val, val_mul, val_sub, atan2_val]
  exact ⟨_, rfl⟩

theorem gmi_sign_val (t : ℝ) :
    gmi_sign (F.val t) = F.val (-1.0) ∨ gmi_sign (F.val t) = F.val 1.0 := by
  obtain ⟨av, ha⟩ := gmi_angle_val_shape t
  unfold gmi_sign
  rw [ha]
  by_cases h : av < 0
  · left
    simp [h]
  · right
    simp [h]

/-- Claim C5: for every finite timestamp the computation of
getMoonIllumination stays NaN-free, the returned fraction (1 + cos inc) / 2
lies in [0, 1], the returned phase 0.5 + 0.5 * inc * sign / pi lies in
[0, 1], and the phase angle inc produced by atan2 with non-negative first
argument lies in [0, pi]. -/
theorem getMoonIllumination_fraction_phase_ranges (t : ℝ) :
    ∃ fr ph iv : ℝ,
      (getMoonIllumination (F.val t)).fraction = F.val fr ∧ 0 ≤ fr ∧ fr ≤ 1 ∧
      (getMoonIllumination (F.val t)).phase = F.val ph ∧ 0 ≤ ph ∧ ph ≤ 1 ∧
      gmi_inc (F.val t) = F.val iv ∧ 0 ≤ iv ∧ iv ≤ Real.pi := by
  obtain ⟨iv, hiv, hiv0, hivpi⟩ := gmi_inc_val_shape t
  have hπ := Real.pi_pos
  have hq0 : 0 ≤ iv / Real.pi := div_nonneg hiv0 (le_of_lt hπ)
  have hq1 : iv / Real.pi ≤ 1 := (div_le_one hπ).mpr hivpi
  have hfr : (getMoonIllumination (F.val t)).fraction
      = F.val ((1.0 + Real.cos iv) / 2.0) := by
    show (F.val 1.0 + Fcos (gmi_inc (F.val t))) / F.val 2.0 = _
    rw [hiv]
    simp only [cos_val, val_add]
    rw [val_div _ _ (by norm_num)]
  rcases gmi_sign_val t with hsg | hsg
  · have hph : (getMoonIllumination (F.val t)).phase
        = F.val (0.5 + 0.5 * iv * (-1.0) / Real.pi) := by
      show F.val 0.5 + F.val 0.5 * gmi_inc (F.val t) * gmi_sign (F.val t) /
          F.val Real.pi = _
      rw [hiv, hsg]
      simp only [val_mul]
      rw [val_div _ _ Real.pi_ne_zero]
      simp only [val_add]
    refine ⟨_, _, _, hfr, ?_, ?_, hph, ?_, ?_, hiv, hiv0, hivpi⟩
    · have := Real.neg_one_le_cos iv
      linarith
    · have := Real.cos_le_one iv
      linarith
    · have he : 0.5 + 0.5 * iv * (-1.0) / Real.pi = 0.5 - 0.5 * (iv / Real.pi) := by
        ring
      rw [he]
      linarith
    · have he : 0.5 + 0.5 * iv * (-1.0) / Real.pi = 0.5 - 0.5 * (iv / Real.pi) := by
        ring
      rw [he]
      linarith
  · have hph : (getMoonIllumination (F.val t)).phase
        = F.val (0.5 + 0.5 * iv * 1.0 / Real.pi) := by
      show F.val 0.5 + F.val 0.5 * gmi_inc (F.val t) * gmi_sign (F.val t) /
          F.val Real.pi = _
      rw [hiv, hsg]
      simp only [val_mul]
      rw [val_div _ _ Real.pi_ne_zero]
      simp only [val_add]
    refine ⟨_, _, _, hfr, ?_, ?_, hph, ?_, ?_, hiv, hiv0, hivpi⟩
    · have := Real.neg_one_le_cos iv
      linarith
    · have := Real.cos_le_one iv
      linarith
    · have he : 0.5 + 0.5 * iv * 1.0 / Real.pi = 0.5 + 0.5 * (iv / Real.pi) := by
        ring
      rw [he]
      linarith
    · have he : 0.5 + 0.5 * iv * 1.0 / Real.pi = 0.5 + 0.5 * (iv / Real.pi) := by
        ring
      rw [he]
      linarith
